import Mathlib

/-!
Shallow embedding of the Taikan landscape animation kernel: the data model
(`src/types.ts`, `src/config.ts`), the cloud drift logic (`Cloud.update`),
the polygon interior test (`Mountain.isPointInside`), the bird steering and
flocking system (`Bird.update`, `Bird.applyFlocking` and the three boid
rules), and the per-tick orchestration of `Scene.update`.

Numbers are modelled as elements of a linear ordered field (instantiated at
`ℚ` or `ℝ` as needed); JavaScript floating-point rounding is not modelled.
The values returned by `Math.random()` inside `Bird.update` are passed in as
explicit arguments, so that the update function is a pure function of the
bird, the inputs and the sampled random numbers.
-/

namespace Taikan

/-- Type `Vector2` / `Point` from `src/types.ts`: a pair of coordinates. -/
structure Vector2 (α : Type) where
  x : α
  y : α

/-- Type `Vector3` from `src/types.ts`: used for the cloud noise seed. -/
structure Vector3 (α : Type) where
  x : α
  y : α
  z : α

/-! ### Cloud (`src/Cloud.ts`) -/

/-- The state of a `Cloud` object (`src/Cloud.ts`).  Fields not touched by
`update` (the noise parameters and dimensions) are carried along so that the
frame conditions of `update` can be stated. -/
structure Cloud (α : Type) where
  position : Vector2 α
  velocity : Vector2 α
  scale : α
  width : α
  height : α
  noiseSeed : Vector3 α
  noiseScale : α
  timeOffset : α

/-- Operation `Cloud.update(deltaTime, windSpeed, canvasWidth)`: drift horizontally by
`velocity.x * windSpeed * deltaTime`, then wrap to `-width - buffer` once
`position.x > canvasWidth + buffer`, with `buffer = 200`. -/
def Cloud.update {α : Type} [LinearOrderedField α] (c : Cloud α)
    (deltaTime windSpeed canvasWidth : α) : Cloud α :=
  let x1 := c.position.x + c.velocity.x * windSpeed * deltaTime
  if x1 > canvasWidth + 200 then
    { c with position := { x := -c.width - 200, y := c.position.y } }
  else
    { c with position := { x := x1, y := c.position.y } }

/-! ### Mountain (`src/Mountain.ts`) -/

/-- A `Mountain` is a polygon given by its vertex list in normalized
coordinates. -/
structure Mountain (α : Type) where
  vertices : List (Vector2 α)

/-- Index into a vertex list; the source only ever indexes within bounds, so
out-of-range access (which cannot occur) defaults to the origin. -/
def vertexAt {α : Type} [LinearOrderedField α] (vs : List (Vector2 α)) (i : ℕ) :
    Vector2 α :=
  vs.getD i ⟨0, 0⟩

/-- The per-edge ray-crossing test from `Mountain.isPointInside`:
`((yi > y) !== (yj > y)) && (x < (xj - xi) * (y - yi) / (yj - yi) + xi)`,
where `vi = vertices[i]` and `vj = vertices[j]` are the edge endpoints. -/
def crossing {α : Type} [LinearOrderedField α] (p vi vj : Vector2 α) : Bool :=
  (decide (vi.y > p.y) != decide (vj.y > p.y)) &&
    decide (p.x < (vj.x - vi.x) * (p.y - vi.y) / (vj.y - vi.y) + vi.x)

/-- The crossing test for index `i` of the loop in `Mountain.isPointInside`:
the partner index `j` starts at `length - 1` and is then the previous `i`,
i.e. `j = (i + length - 1) % length`. -/
def crossAt {α : Type} [LinearOrderedField α] (vs : List (Vector2 α))
    (p : Vector2 α) (i : ℕ) : Bool :=
  crossing p (vertexAt vs i) (vertexAt vs ((i + vs.length - 1) % vs.length))

/-- Predicate `Mountain.isPointInside(point)`: ray casting over the closed vertex loop;
with fewer than 3 vertices it returns `false` unconditionally. -/
def Mountain.isPointInside {α : Type} [LinearOrderedField α] (m : Mountain α)
    (point : Vector2 α) : Bool :=
  if m.vertices.length < 3 then false
  else
    (List.range m.vertices.length).foldl
      (fun inside i => if crossAt m.vertices point i then !inside else inside)
      false

/-! ### Bird (`src/Bird.ts`) -/

noncomputable section BirdModel

/-- Configuration constants from `src/config.ts` that `Bird.update` and
`Bird.applyFlocking` read. -/
def BIRD_DIRECTION_CHANGE_MIN : ℝ := 10

/-- Maximum seconds between random direction changes. -/
def BIRD_DIRECTION_CHANGE_MAX : ℝ := 20

/-- Random direction adjustments stay within plus or minus 30 degrees. -/
def BIRD_RANDOM_TURN_RANGE : ℝ := Real.pi / 3

/-- How much flocking influences direction. -/
def BIRD_FLOCKING_BLEND_FACTOR : ℝ := 0.4

/-- Distance from screen edges that triggers avoidance. -/
def BIRD_EDGE_MARGIN : ℝ := 0.05

/-- Minimum turn rate multiplier (banking into turn). -/
def BIRD_TURN_INERTIA_MIN : ℝ := 0.2

/-- Maximum turn rate multiplier (aligning). -/
def BIRD_TURN_INERTIA_MAX : ℝ := 0.7

/-- The state of a `Bird` object. -/
structure Bird where
  position : Vector2 ℝ
  velocity : Vector2 ℝ
  targetDirection : ℝ
  baseSpeed : ℝ
  currentSpeed : ℝ
  minSpeed : ℝ
  maxSpeed : ℝ
  gravityEffect : ℝ
  turnSpeed : ℝ
  scale : ℝ
  directionChangeTimer : ℝ
  separationDistance : ℝ
  alignmentDistance : ℝ
  cohesionDistance : ℝ
  separationWeight : ℝ
  alignmentWeight : ℝ
  cohesionWeight : ℝ

/-- JavaScript `Math.atan2(y, x)`; the signed-zero distinctions of IEEE
floats collapse because the reals have a single zero. -/
def atan2 (y x : ℝ) : ℝ :=
  if 0 < x then Real.arctan (y / x)
  else if x < 0 then
    (if 0 ≤ y then Real.arctan (y / x) + Real.pi else Real.arctan (y / x) - Real.pi)
  else if 0 < y then Real.pi / 2
  else if y < 0 then -(Real.pi / 2)
  else 0

/-- Closed form of the angle-wrapping loops
`while (a > π) a -= 2π; while (a < -π) a += 2π` used in `Bird.update` and
`Bird.applyFlocking`: the first loop subtracts `2π` the minimal number of
times needed to reach `(-π, π]`, the second adds `2π` the minimal number of
times needed to reach `[-π, π)`; at most one loop runs. -/
def normalizeAngle (a : ℝ) : ℝ :=
  if Real.pi < a then a - 2 * Real.pi * (⌈(a - Real.pi) / (2 * Real.pi)⌉ : ℤ)
  else if a < -Real.pi then a + 2 * Real.pi * (⌈(-Real.pi - a) / (2 * Real.pi)⌉ : ℤ)
  else a

/-- Lines 95-122 of `Bird.update`: edge avoidance followed by the mountain
test; the mountain branch overwrites any edge steering direction. -/
def Bird.avoidance (b : Bird) (mountain : Option (Mountain ℝ)) : Option ℝ :=
  let edge : Option ℝ :=
    if b.position.x < BIRD_EDGE_MARGIN then some 0
    else if b.position.x > 1 - BIRD_EDGE_MARGIN then some Real.pi
    else if b.position.y < BIRD_EDGE_MARGIN then some (Real.pi / 2)
    else if b.position.y > 1 - BIRD_EDGE_MARGIN then some (-(Real.pi / 2))
    else none
  match mountain with
  | some m => if m.isPointInside b.position then some (-(Real.pi / 2)) else edge
  | none => edge

/-- The transient speed boost applied when the bird is inside the mountain
(`if (this.currentSpeed < this.baseSpeed * 1.2) this.currentSpeed = this.baseSpeed * 1.2`). -/
def Bird.boostedSpeed (b : Bird) (mountain : Option (Mountain ℝ)) : ℝ :=
  match mountain with
  | some m =>
    if m.isPointInside b.position then
      (if b.currentSpeed < b.baseSpeed * 1.2 then b.baseSpeed * 1.2 else b.currentSpeed)
    else b.currentSpeed
  | none => b.currentSpeed

/-- The per-tick turn budget `maxTurn = adjustedTurnSpeed * deltaTime`
of `Bird.update`, with the ease-out-cubic inertia factor. -/
def turnLimit (target current turnSpeed deltaTime : ℝ) : ℝ :=
  let angleDiff := normalizeAngle (target - current)
  let angleDiffNormalized := |angleDiff| / Real.pi
  let turnFactor := 1 - (1 - angleDiffNormalized) ^ 3
  turnSpeed * (BIRD_TURN_INERTIA_MIN + turnFactor * (BIRD_TURN_INERTIA_MAX - BIRD_TURN_INERTIA_MIN))
    * deltaTime

/-- The new heading chosen by `Bird.update`: advance from the current heading
toward the target by `sign(angleDiff) * min(|angleDiff|, maxTurn)`. -/
def turnStep (target current turnSpeed deltaTime : ℝ) : ℝ :=
  let angleDiff := normalizeAngle (target - current)
  current + Real.sign angleDiff * min |angleDiff| (turnLimit target current turnSpeed deltaTime)

/-- The target direction chosen by `Bird.update` (lines 124-138): the
avoidance direction when one fires, otherwise the cruising logic, which
perturbs the current heading by a random offset when the decremented timer
has expired and keeps the previous target otherwise.  `rand1` is the
`Math.random()` sample of the perturbation. -/
def Bird.newTargetDirection (b : Bird) (deltaTime : ℝ) (mountain : Option (Mountain ℝ))
    (rand1 : ℝ) : ℝ :=
  match b.avoidance mountain with
  | some d => d
  | none =>
    if b.directionChangeTimer - deltaTime ≤ 0 then
      atan2 b.velocity.y b.velocity.x + (rand1 - 0.5) * BIRD_RANDOM_TURN_RANGE
    else b.targetDirection

/-- The direction-change timer after `Bird.update`: untouched in avoidance
mode, decremented while cruising, and reset to a random interval (from the
`Math.random()` sample `rand2`) when it expires. -/
def Bird.newTimer (b : Bird) (deltaTime : ℝ) (mountain : Option (Mountain ℝ))
    (rand2 : ℝ) : ℝ :=
  match b.avoidance mountain with
  | some _ => b.directionChangeTimer
  | none =>
    if b.directionChangeTimer - deltaTime ≤ 0 then
      BIRD_DIRECTION_CHANGE_MIN + rand2 * (BIRD_DIRECTION_CHANGE_MAX - BIRD_DIRECTION_CHANGE_MIN)
    else b.directionChangeTimer - deltaTime

/-- The new heading of `Bird.update` (lines 140-160): turn from the current
velocity heading toward the target, rate-limited with inertia easing. -/
def Bird.newDirection (b : Bird) (deltaTime : ℝ) (mountain : Option (Mountain ℝ))
    (rand1 : ℝ) : ℝ :=
  turnStep (b.newTargetDirection deltaTime mountain rand1)
    (atan2 b.velocity.y b.velocity.x) b.turnSpeed deltaTime

/-- The new speed of `Bird.update` (lines 162-179): the (possibly boosted)
speed plus the gravity effect of the new heading, clamped to
`[minSpeed, maxSpeed]`. -/
def Bird.newSpeed (b : Bird) (deltaTime : ℝ) (mountain : Option (Mountain ℝ))
    (rand1 : ℝ) : ℝ :=
  max b.minSpeed (min b.maxSpeed
    (b.boostedSpeed mountain +
      b.gravityEffect * Real.sin (b.newDirection deltaTime mountain rand1) * deltaTime))

/-- Operation `Bird.update(deltaTime, _canvasWidth, _canvasHeight, mountain?)`.  The
canvas dimensions are unused by the source (underscore parameters) and kept
for signature fidelity.  `rand1` is the `Math.random()` value used for the
random direction offset and `rand2` the one used for the timer reset; both
are consumed only when no avoidance fires and the timer has expired.  The
source also computes a `normalizedAngle` copy of the new direction
(lines 163-166) that it never reads; that dead code is omitted. -/
def Bird.update (b : Bird) (deltaTime canvasWidth canvasHeight : ℝ)
    (mountain : Option (Mountain ℝ)) (rand1 rand2 : ℝ) : Bird :=
  let newDirection := b.newDirection deltaTime mountain rand1
  let newSpeed := b.newSpeed deltaTime mountain rand1
  let newVelocity : Vector2 ℝ :=
    ⟨Real.cos newDirection * newSpeed, Real.sin newDirection * newSpeed⟩
  let newPosition : Vector2 ℝ :=
    ⟨b.position.x + newVelocity.x * deltaTime, b.position.y + newVelocity.y * deltaTime⟩
  { b with
    position := newPosition
    velocity := newVelocity
    targetDirection := b.newTargetDirection deltaTime mountain rand1
    currentSpeed := newSpeed
    directionChangeTimer := b.newTimer deltaTime mountain rand2 }

/-! ### Flocking (`Bird.getNeighbors`, `separation`, `alignment`, `cohesion`,
`applyFlocking`), with the flock modelled as an array `Fin n → Bird` and the
JavaScript reference test `other === this` becoming an index test `j ≠ i`. -/

/-- Euclidean distance between two points, written exactly as in the source:
`sqrt(dx*dx + dy*dy)` with `dx = q.x - p.x`, `dy = q.y - p.y`. -/
def vdist (p q : Vector2 ℝ) : ℝ :=
  Real.sqrt ((q.x - p.x) * (q.x - p.x) + (q.y - p.y) * (q.y - p.y))

/-- Operation `Bird.getNeighbors(flock, maxDistance)`: the indices of the other flock
members strictly closer than `maxDistance`. -/
def getNeighbors {n : ℕ} (flock : Fin n → Bird) (i : Fin n) (maxDistance : ℝ) :
    Finset (Fin n) :=
  Finset.univ.filter fun j =>
    j ≠ i ∧ vdist (flock i).position (flock j).position < maxDistance

/-- The cubic separation urgency `(1 - distance/separationDistance)^3`. -/
def separationUrgency (separationDistance distance : ℝ) : ℝ :=
  (1 - distance / separationDistance) ^ 3

/-- Rule `Bird.separation(flock)` for the member at index `i`: weighted average of
the unit vectors away from each close neighbor, scaled by
`separationWeight`; contributions are guarded by `0 < distance < separationDistance`. -/
def Bird.separation {n : ℕ} (flock : Fin n → Bird) (i : Fin n) : Vector2 ℝ :=
  let b := flock i
  let ns := getNeighbors flock i b.separationDistance
  if ns.card = 0 then ⟨0, 0⟩
  else
    let contrib : Fin n → ℝ × ℝ × ℝ := fun j =>
      let dx := b.position.x - (flock j).position.x
      let dy := b.position.y - (flock j).position.y
      let distance := Real.sqrt (dx * dx + dy * dy)
      if 0 < distance ∧ distance < b.separationDistance then
        let urgency := separationUrgency b.separationDistance distance
        (dx / distance * urgency, dy / distance * urgency, urgency)
      else (0, 0, 0)
    let steerX := ∑ j in ns, (contrib j).1
    let steerY := ∑ j in ns, (contrib j).2.1
    let totalWeight := ∑ j in ns, (contrib j).2.2
    let outX := if 0 < totalWeight then steerX / totalWeight else steerX
    let outY := if 0 < totalWeight then steerY / totalWeight else steerY
    ⟨outX * b.separationWeight, outY * b.separationWeight⟩

/-- The alignment neighbor weight of `Bird.alignment`: with
`normalizedDist = distance / alignmentDistance`, the squared bell
`(1 - |normalizedDist - 0.5| * 2)^2`. -/
def alignmentNeighborWeight (alignmentDistance distance : ℝ) : ℝ :=
  let normalizedDist := distance / alignmentDistance
  let sweetSpot := 1 - |normalizedDist - 0.5| * 2
  sweetSpot ^ 2

/-- Rule `Bird.alignment(flock)` for the member at index `i`: bell-weighted
average of neighbor velocities, steering toward it from the own velocity. -/
def Bird.alignment {n : ℕ} (flock : Fin n → Bird) (i : Fin n) : Vector2 ℝ :=
  let b := flock i
  let ns := getNeighbors flock i b.alignmentDistance
  if ns.card = 0 then ⟨0, 0⟩
  else
    let w : Fin n → ℝ := fun j =>
      alignmentNeighborWeight b.alignmentDistance (vdist b.position (flock j).position)
    let totalWeight := ∑ j in ns, w j
    let sumVelX := ∑ j in ns, (flock j).velocity.x * w j
    let sumVelY := ∑ j in ns, (flock j).velocity.y * w j
    let avgVelX := if 0 < totalWeight then sumVelX / totalWeight else sumVelX
    let avgVelY := if 0 < totalWeight then sumVelY / totalWeight else sumVelY
    ⟨(avgVelX - b.velocity.x) * b.alignmentWeight, (avgVelY - b.velocity.y) * b.alignmentWeight⟩

/-- The quadratic cohesion weight `(distance/cohesionDistance)^2`. -/
def cohesionNeighborWeight (cohesionDistance distance : ℝ) : ℝ :=
  (distance / cohesionDistance) ^ 2

/-- Rule `Bird.cohesion(flock)` for the member at index `i`: quadratically
weighted average of neighbor positions, steering toward it from the own
position. -/
def Bird.cohesion {n : ℕ} (flock : Fin n → Bird) (i : Fin n) : Vector2 ℝ :=
  let b := flock i
  let ns := getNeighbors flock i b.cohesionDistance
  if ns.card = 0 then ⟨0, 0⟩
  else
    let w : Fin n → ℝ := fun j =>
      cohesionNeighborWeight b.cohesionDistance (vdist b.position (flock j).position)
    let totalWeight := ∑ j in ns, w j
    let sumPosX := ∑ j in ns, (flock j).position.x * w j
    let sumPosY := ∑ j in ns, (flock j).position.y * w j
    let avgPosX := if 0 < totalWeight then sumPosX / totalWeight else sumPosX
    let avgPosY := if 0 < totalWeight then sumPosY / totalWeight else sumPosY
    ⟨(avgPosX - b.position.x) * b.cohesionWeight, (avgPosY - b.position.y) * b.cohesionWeight⟩

/-- Operation `Bird.applyFlocking(flock)` for the member at index `i`: sum the three
boid forces and, when the magnitude exceeds `0.01`, blend the desired
direction into `targetDirection` along the shorter angular path. -/
def Bird.applyFlocking {n : ℕ} (flock : Fin n → Bird) (i : Fin n) : Bird :=
  let b := flock i
  let sep := Bird.separation flock i
  let ali := Bird.alignment flock i
  let coh := Bird.cohesion flock i
  let totalForceX := sep.x + ali.x + coh.x
  let totalForceY := sep.y + ali.y + coh.y
  let forceMagnitude := Real.sqrt (totalForceX * totalForceX + totalForceY * totalForceY)
  if 0.01 < forceMagnitude then
    let desiredDirection := atan2 totalForceY totalForceX
    let angleDiff := normalizeAngle (desiredDirection - b.targetDirection)
    { b with targetDirection := b.targetDirection + angleDiff * BIRD_FLOCKING_BLEND_FACTOR }
  else b

/-- The flocking pass of `Scene.update`, generalized to visit the members in
an arbitrary sequential order: each visited member is replaced in place by
the result of its `applyFlocking` call against the current flock array.  The
source's loop is the special case `order = [0, 1, ..., n-1]`. -/
def flockPass {n : ℕ} (flock : Fin n → Bird) (order : List (Fin n)) : Fin n → Bird :=
  order.foldl (fun st i => Function.update st i (Bird.applyFlocking st i)) flock

/-! ### Concrete sample objects for the scenario theorems -/

/-- A bird with the default `src/config.ts` parameters (initial heading and
timer fixed), used by the concrete scenario theorems. -/
def baseBird : Bird where
  position := ⟨0, 0⟩
  velocity := ⟨0, 1⟩
  targetDirection := 0
  baseSpeed := 0.045
  currentSpeed := 0.045
  minSpeed := 0.035
  maxSpeed := 0.07
  gravityEffect := 0.02
  turnSpeed := Real.pi
  scale := 1
  directionChangeTimer := 5
  separationDistance := 0.03
  alignmentDistance := 0.06
  cohesionDistance := 0.15
  separationWeight := 4
  alignmentWeight := 3.5
  cohesionWeight := 0.5

/-- A bird at the origin whose separation radius is 1. -/
def birdA : Bird :=
  { baseBird with separationDistance := 1 }

/-- A bird at distance exactly 1 (its separation radius) from `birdA`. -/
def birdB : Bird :=
  { baseBird with position := ⟨1, 0⟩, separationDistance := 1 }

/-- A bird inside the triangular test mountain, flying straight down. -/
def divingBird : Bird :=
  { baseBird with position := ⟨1/4, 1/4⟩ }

/-- A bird inside the triangular test mountain, flying straight up with unit
turn speed. -/
def escapingBird : Bird :=
  { baseBird with position := ⟨1/4, 1/4⟩, velocity := ⟨0, -1⟩, turnSpeed := 1 }

/-- A right triangle containing the point `(1/4, 1/4)`. -/
def triangleMountain : Mountain ℝ :=
  ⟨[⟨0, 0⟩, ⟨1, 0⟩, ⟨0, 1⟩]⟩

end BirdModel

/-- The end-to-end wrap scenario cloud of the specification: `width = 300`,
`position.x = 1205`, `velocity.x = 1`, modelled over `ℚ`. -/
def sampleCloud : Cloud ℚ where
  position := ⟨1205, 50⟩
  velocity := ⟨1, 0⟩
  scale := 1
  width := 300
  height := 100
  noiseSeed := ⟨100, 100, 50⟩
  noiseScale := 60
  timeOffset := 0

/-! ## Theorems -/

/-- C3: for every CloudAgent whose `position.x` exceeds `canvasWidth + 200`,
the next `update` with `velocity.x = 1`, positive `windSpeed` and
nonnegative `deltaTime` sets `position.x` to exactly `-width - 200`. -/
theorem cloud_wrap_exact {α : Type} [LinearOrderedField α] (c : Cloud α)
    (deltaTime windSpeed canvasWidth : α)
    (hx : c.position.x > canvasWidth + 200) (hv : c.velocity.x = 1)
    (hw : 0 < windSpeed) (hd : 0 ≤ deltaTime) :
    (c.update deltaTime windSpeed canvasWidth).position.x = -c.width - 200 := by
  have hstep : (0 : α) ≤ c.velocity.x * windSpeed * deltaTime := by
    rw [hv, one_mul]
    exact mul_nonneg hw.le hd
  have h1 : c.position.x + c.velocity.x * windSpeed * deltaTime > canvasWidth + 200 := by
    linarith
  simp only [Cloud.update, if_pos h1]

/-- Witness for C3, which is also the end-to-end scenario of the
specification: `width = 300`, `canvasWidth = 1000`, `position.x = 1205`,
`velocity.x = 1`, `windSpeed = 15 > 0` gives `position.x = -500`. -/
theorem cloud_wrap_exact_witness :
    (sampleCloud.position.x > 1000 + 200 ∧ sampleCloud.velocity.x = 1 ∧
        (0 : ℚ) < 15 ∧ (0 : ℚ) ≤ 1) ∧
      (sampleCloud.update 1 15 1000).position.x = -500 :=
  ⟨⟨by norm_num [sampleCloud], rfl, by norm_num, by norm_num⟩,
    (cloud_wrap_exact sampleCloud 1 15 1000 (by norm_num [sampleCloud]) rfl
        (by norm_num) (by norm_num)).trans (by norm_num [sampleCloud])⟩

/-- C6: `CloudAgent.update` modifies only `position.x`: whether or not the
wrap occurs, `position.y`, `velocity`, `width`, `height`, `noiseSeed`,
`noiseScale` and `timeOffset` are unchanged. -/
theorem cloud_update_frame {α : Type} [LinearOrderedField α] (c : Cloud α)
    (deltaTime windSpeed canvasWidth : α) :
    (c.update deltaTime windSpeed canvasWidth).position.y = c.position.y ∧
      (c.update deltaTime windSpeed canvasWidth).velocity = c.velocity ∧
      (c.update deltaTime windSpeed canvasWidth).width = c.width ∧
      (c.update deltaTime windSpeed canvasWidth).height = c.height ∧
      (c.update deltaTime windSpeed canvasWidth).noiseSeed = c.noiseSeed ∧
      (c.update deltaTime windSpeed canvasWidth).noiseScale = c.noiseScale ∧
      (c.update deltaTime windSpeed canvasWidth).timeOffset = c.timeOffset := by
  by_cases h : c.position.x + c.velocity.x * windSpeed * deltaTime > canvasWidth + 200 <;>
    simp [Cloud.update, h]

/-- C9: `isPointInside` on a polygon with fewer than 3 vertices returns
`false` for every query point (fail-open on malformed geometry). -/
theorem isPointInside_fewer_than_three {α : Type} [LinearOrderedField α]
    (m : Mountain α) (p : Vector2 α) (h : m.vertices.length < 3) :
    m.isPointInside p = false := by
  simp [Mountain.isPointInside, h]

/-- Witness for C9: a two-vertex "polygon" answers `false`. -/
theorem isPointInside_fewer_than_three_witness :
    (Mountain.mk [⟨0, 0⟩, ⟨1, 1⟩] : Mountain ℚ).vertices.length < 3 ∧
      (Mountain.mk [⟨0, 0⟩, ⟨1, 1⟩] : Mountain ℚ).isPointInside ⟨0, 0⟩ = false :=
  ⟨by decide, isPointInside_fewer_than_three _ _ (by decide)⟩

/-- C1: after any `Bird.update` call (any `deltaTime`, canvas dimensions,
optional mountain and random samples), the post-state satisfies
`minSpeed ≤ currentSpeed ≤ maxSpeed`, provided `minSpeed ≤ maxSpeed`. -/
theorem update_speed_clamped (b : Bird) (deltaTime canvasWidth canvasHeight : ℝ)
    (mountain : Option (Mountain ℝ)) (rand1 rand2 : ℝ)
    (h : b.minSpeed ≤ b.maxSpeed) :
    b.minSpeed ≤ (b.update deltaTime canvasWidth canvasHeight mountain rand1 rand2).currentSpeed ∧
      (b.update deltaTime canvasWidth canvasHeight mountain rand1 rand2).currentSpeed ≤
        b.maxSpeed := by
  simp only [Bird.update]
  exact ⟨le_max_left _ _, max_le h (min_le_left _ _)⟩

/-- Witness for C1 at the default configuration
(`minSpeed = 0.035 ≤ 0.07 = maxSpeed`). -/
theorem update_speed_clamped_witness :
    divingBird.minSpeed ≤ divingBird.maxSpeed ∧
      divingBird.minSpeed ≤ (divingBird.update 1 1 1 none 0 0).currentSpeed ∧
      (divingBird.update 1 1 1 none 0 0).currentSpeed ≤ divingBird.maxSpeed :=
  ⟨by norm_num [divingBird, baseBird],
    update_speed_clamped divingBird 1 1 1 none 0 0 (by norm_num [divingBird, baseBird])⟩

/-- C8: the alignment neighbor weight on `[0, alignmentDistance]` attains its
maximum at `alignmentDistance / 2` and is strictly smaller at `0` and at
`alignmentDistance`. -/
theorem alignment_weight_peak (D : ℝ) (hD : 0 < D) :
    (∀ d, 0 ≤ d → d ≤ D →
        alignmentNeighborWeight D d ≤ alignmentNeighborWeight D (D / 2)) ∧
      alignmentNeighborWeight D 0 < alignmentNeighborWeight D (D / 2) ∧
      alignmentNeighborWeight D D < alignmentNeighborWeight D (D / 2) := by
  have habs12 : |(1 : ℝ) / 2| = 1 / 2 := abs_of_nonneg (by norm_num)
  have hmid : alignmentNeighborWeight D (D / 2) = 1 := by
    have h2 : D / 2 / D = 1 / 2 := by
      field_simp
      ring
    simp only [alignmentNeighborWeight, h2]
    norm_num
  have h0 : alignmentNeighborWeight D 0 = 0 := by
    simp only [alignmentNeighborWeight, zero_div]
    norm_num [habs12]
  have hDD : alignmentNeighborWeight D D = 0 := by
    simp only [alignmentNeighborWeight, div_self hD.ne']
    norm_num [habs12]
  refine ⟨fun d h1 h2 => ?_, by rw [h0, hmid]; norm_num, by rw [hDD, hmid]; norm_num⟩
  have hx0 : 0 ≤ d / D := div_nonneg h1 hD.le
  have hx1 : d / D ≤ 1 := (div_le_one hD).mpr h2
  have habs : |d / D - 0.5| ≤ 0.5 := abs_le.mpr ⟨by linarith, by linarith⟩
  have habs0 : 0 ≤ |d / D - 0.5| := abs_nonneg _
  rw [hmid]
  simp only [alignmentNeighborWeight]
  exact pow_le_one₀ (by linarith) (by linarith)

/-- Witness for C8 at `alignmentDistance = 1`. -/
theorem alignment_weight_peak_witness :
    (0 : ℝ) < 1 ∧ alignmentNeighborWeight 1 0 < alignmentNeighborWeight 1 (1 / 2) :=
  ⟨one_pos, (alignment_weight_peak 1 one_pos).2.1⟩

/-- C7: two flock members positioned exactly `separationDistance` apart give
each other a separation contribution of exactly `(0, 0)` (the threshold is
boundary-exclusive), and the cubic urgency weight tends to `0` as the
distance approaches `separationDistance`. -/
theorem separation_boundary_zero (flock : Fin 2 → Bird) (i : Fin 2)
    (h : vdist (flock i).position (flock (1 - i)).position =
        (flock i).separationDistance) :
    Bird.separation flock i = ⟨0, 0⟩ ∧
      (0 < (flock i).separationDistance →
        Filter.Tendsto (separationUrgency (flock i).separationDistance)
          (nhds (flock i).separationDistance) (nhds 0)) := by
  have hother : ∀ a b : Fin 2, b ≠ a → b = 1 - a := by decide
  have hns : getNeighbors flock i (flock i).separationDistance = ∅ := by
    simp only [getNeighbors]
    rw [Finset.filter_eq_empty_iff]
    rintro j - ⟨hji, hlt⟩
    rw [hother i j hji, h] at hlt
    exact lt_irrefl _ hlt
  refine ⟨by simp [Bird.separation, hns], fun hD => ?_⟩
  have hc : Continuous (separationUrgency (flock i).separationDistance) := by
    unfold separationUrgency
    exact (continuous_const.sub (continuous_id.div_const _)).pow 3
  have ht := hc.tendsto (flock i).separationDistance
  simpa [separationUrgency, div_self hD.ne'] using ht

/-- Witness for C7: two birds at distance exactly 1 with separation radius 1. -/
theorem separation_boundary_zero_witness :
    vdist (![birdA, birdB] 0).position (![birdA, birdB] (1 - 0)).position =
        (![birdA, birdB] 0).separationDistance ∧
      Bird.separation ![birdA, birdB] 0 = ⟨0, 0⟩ := by
  have h : vdist (![birdA, birdB] 0).position (![birdA, birdB] (1 - 0)).position =
      (![birdA, birdB] 0).separationDistance := by
    norm_num [(by decide : (1 - 0 : Fin 2) = 1), vdist, birdA, birdB, baseBird]
  exact ⟨h, (separation_boundary_zero ![birdA, birdB] 0 h).1⟩

/-- C10: if a flock member's only neighbor within `cohesionDistance` sits at
exactly its own position, the quadratic weight and hence `totalWeight` are
`0`, the average-position guard is skipped, and `cohesion` returns
`(-position.x * cohesionWeight, -position.y * cohesionWeight)` — a steering
force toward the coordinate origin, not the zero vector. -/
theorem cohesion_degenerate (flock : Fin 2 → Bird)
    (hpos : (flock 1).position = (flock 0).position)
    (hD : 0 < (flock 0).cohesionDistance) :
    Bird.cohesion flock 0 =
      ⟨-(flock 0).position.x * (flock 0).cohesionWeight,
        -(flock 0).position.y * (flock 0).cohesionWeight⟩ := by
  have hd0 : vdist (flock 0).position (flock 1).position = 0 := by
    rw [hpos]
    simp [vdist]
  have hns : getNeighbors flock 0 (flock 0).cohesionDistance = {1} := by
    apply Finset.ext
    intro j
    simp only [getNeighbors, Finset.mem_filter, Finset.mem_univ, true_and,
      Finset.mem_singleton]
    constructor
    · rintro ⟨hj, -⟩
      exact (by decide : ∀ j : Fin 2, j ≠ 0 → j = 1) j hj
    · rintro rfl
      exact ⟨by decide, by rw [hd0]; exact hD⟩
  have hw0 : cohesionNeighborWeight (flock 0).cohesionDistance
      (vdist (flock 0).position (flock 1).position) = 0 := by
    rw [hd0]
    simp [cohesionNeighborWeight]
  simp only [Bird.cohesion, hns]
  simp [Finset.sum_singleton, hw0]

/-- Witness for C10: two coincident birds with the default configuration. -/
theorem cohesion_degenerate_witness :
    ((fun _ : Fin 2 => divingBird) 1).position =
        ((fun _ : Fin 2 => divingBird) 0).position ∧
      (0 : ℝ) < ((fun _ : Fin 2 => divingBird) 0).cohesionDistance ∧
      Bird.cohesion (fun _ : Fin 2 => divingBird) 0 =
        ⟨-divingBird.position.x * divingBird.cohesionWeight,
          -divingBird.position.y * divingBird.cohesionWeight⟩ :=
  ⟨rfl, by norm_num [divingBird, baseBird],
    cohesion_degenerate _ rfl (by norm_num [divingBird, baseBird])⟩

/-! Helper lemmas for the cyclic-rotation invariance of `isPointInside`:
the toggling fold computes the parity of the number of crossed edges, and a
cyclic rotation of the vertex list permutes the edge set. -/

/-- A fold that toggles a flag on `f i` computes the parity of `countP f`. -/
lemma foldl_toggle (f : ℕ → Bool) (l : List ℕ) (b : Bool) :
    l.foldl (fun acc i => if f i then !acc else acc) b =
      xor b (decide (l.countP f % 2 = 1)) := by
  induction l generalizing b with
  | nil => simp
  | cons a l ih =>
    rw [List.foldl_cons, ih, List.countP_cons]
    have hflip : ∀ c : ℕ, decide ((c + 1) % 2 = 1) = !decide (c % 2 = 1) := by
      intro c
      rw [← decide_not, decide_eq_decide]
      omega
    by_cases h : f a <;> simp [h, hflip, Bool.xor_not, Bool.not_xor]

/-- On at least 3 vertices, `isPointInside` is the parity of the number of
indices whose edge the rightward ray crosses. -/
lemma isPointInside_parity {α : Type} [LinearOrderedField α] (m : Mountain α)
    (p : Vector2 α) (h : ¬ m.vertices.length < 3) :
    m.isPointInside p =
      decide ((List.range m.vertices.length).countP (crossAt m.vertices p) % 2 = 1) := by
  rw [Mountain.isPointInside, if_neg h, foldl_toggle]
  exact Bool.false_xor _

/-- Counting over `List.range` as a sum of indicator values. -/
lemma countP_range_eq_sum (n : ℕ) (f : ℕ → Bool) :
    (List.range n).countP f = ∑ i in Finset.range n, if f i then 1 else 0 := by
  induction n with
  | zero => simp
  | succ n ih =>
    rw [List.range_succ, List.countP_append, Finset.sum_range_succ, ih]
    simp [List.countP_cons]

/-- Precomposing with a cyclic index shift does not change a count over
`range n`. -/
lemma countP_range_shift (n k : ℕ) (hk : k < n) (f : ℕ → Bool) :
    (List.range n).countP (fun i => f ((i + k) % n)) = (List.range n).countP f := by
  obtain ⟨m, rfl⟩ : ∃ m, n = m + 1 := ⟨n - 1, by omega⟩
  rw [countP_range_eq_sum, countP_range_eq_sum, ← Fin.sum_univ_eq_sum_range,
    ← Fin.sum_univ_eq_sum_range]
  calc
    ∑ i : Fin (m + 1), (if f ((i.val + k) % (m + 1)) then 1 else 0)
        = ∑ i : Fin (m + 1), (if f ((i + (⟨k, hk⟩ : Fin (m + 1))).val) then 1 else 0) := by
          refine Finset.sum_congr rfl fun i _ => ?_
          rw [Fin.val_add]
    _ = ∑ j : Fin (m + 1), (if f j.val then 1 else 0) :=
          Fintype.sum_equiv (Equiv.addRight (⟨k, hk⟩ : Fin (m + 1))) _ _ fun i => rfl

/-- Indexing a rotated list is indexing the original list at the shifted
index. -/
lemma vertexAt_rotate {α : Type} [LinearOrderedField α] (vs : List (Vector2 α))
    (k i : ℕ) (hi : i < vs.length) :
    vertexAt (vs.rotate k) i = vertexAt vs ((i + k) % vs.length) := by
  have h0 : 0 < vs.length := by omega
  have hi2 : i < (vs.rotate k).length := by
    rw [List.length_rotate]
    exact hi
  have hmod : (i + k) % vs.length < vs.length := Nat.mod_lt _ h0
  rw [vertexAt, vertexAt, List.getD_eq_getElem _ _ hi2, List.getD_eq_getElem _ _ hmod,
    List.getElem_rotate]

/-- The previous-index computation commutes with the cyclic shift. -/
lemma shift_pred_mod (n i k : ℕ) (hn : 0 < n) :
    ((i + n - 1) % n + k) % n = ((i + k) % n + n - 1) % n := by
  have h1 : i + n - 1 = i + (n - 1) := by omega
  have h2 : (i + k) % n + n - 1 = (i + k) % n + (n - 1) := by omega
  rw [h1, h2, Nat.mod_add_mod, Nat.mod_add_mod]
  congr 1
  omega

/-- The edge crossing test of the rotated list at index `i` is the crossing
test of the original list at index `(i + k) % n`. -/
lemma crossAt_rotate {α : Type} [LinearOrderedField α] (vs : List (Vector2 α))
    (p : Vector2 α) (k i : ℕ) (hk : k < vs.length) (hi : i < vs.length) :
    crossAt (vs.rotate k) p i = crossAt vs p ((i + k) % vs.length) := by
  have h0 : 0 < vs.length := by omega
  rw [crossAt, crossAt, List.length_rotate]
  rw [vertexAt_rotate vs k i hi, vertexAt_rotate vs k _ (Nat.mod_lt _ h0),
    shift_pred_mod vs.length i k h0]

/-- C5: `isPointInside` is invariant under cyclic rotation of the vertex
list: for every vertex list, rotation amount and query point, the rotated
polygon answers exactly as the original. -/
theorem isPointInside_rotate {α : Type} [LinearOrderedField α] (m : Mountain α)
    (k : ℕ) (p : Vector2 α) :
    (Mountain.mk (m.vertices.rotate k)).isPointInside p = m.isPointInside p := by
  by_cases h : m.vertices.length < 3
  · have h2 : (m.vertices.rotate k).length < 3 := by
      rw [List.length_rotate]
      exact h
    rw [Mountain.isPointInside, Mountain.isPointInside, if_pos h2, if_pos h]
  · have h0 : 0 < m.vertices.length := by omega
    have h2 : ¬ (Mountain.mk (m.vertices.rotate (k % m.vertices.length)) :
        Mountain α).vertices.length < 3 := by
      simpa [List.length_rotate] using h
    rw [← List.rotate_mod, isPointInside_parity _ p h2, isPointInside_parity m p h]
    have hk : k % m.vertices.length < m.vertices.length := Nat.mod_lt _ h0
    have hcount : (List.range (m.vertices.rotate (k % m.vertices.length)).length).countP
        (crossAt (m.vertices.rotate (k % m.vertices.length)) p) =
        (List.range m.vertices.length).countP (crossAt m.vertices p) := by
      rw [List.length_rotate]
      have hcongr : (List.range m.vertices.length).countP
          (crossAt (m.vertices.rotate (k % m.vertices.length)) p) =
          (List.range m.vertices.length).countP
            (fun i => crossAt m.vertices p ((i + k % m.vertices.length) % m.vertices.length)) := by
        apply List.countP_congr
        intro i hi
        rw [crossAt_rotate m.vertices p _ i hk (List.mem_range.mp hi)]
      rw [hcongr, countP_range_shift _ _ hk]
    rw [hcount]

/-! Helper lemmas for the order independence of the flocking pass: each boid
rule reads only positions and velocities of the other members (plus the full
own record), and `applyFlocking` writes only the own `targetDirection`. -/

/-- Function `getNeighbors` depends only on the members' positions. -/
lemma getNeighbors_congr {n : ℕ} (st st2 : Fin n → Bird) (i : Fin n) (D : ℝ)
    (hp : ∀ j, (st j).position = (st2 j).position) :
    getNeighbors st i D = getNeighbors st2 i D := by
  unfold getNeighbors
  apply Finset.filter_congr
  intro j _
  rw [hp i, hp j]

/-- Function `separation` depends only on the own record and the positions. -/
lemma separation_congr {n : ℕ} (st st2 : Fin n → Bird) (i : Fin n)
    (hp : ∀ j, (st j).position = (st2 j).position) (hi : st i = st2 i) :
    Bird.separation st i = Bird.separation st2 i := by
  simp only [Bird.separation, hi, hp]
  rw [getNeighbors_congr st st2 i _ hp]

/-- Function `alignment` depends only on the own record, positions and velocities. -/
lemma alignment_congr {n : ℕ} (st st2 : Fin n → Bird) (i : Fin n)
    (hp : ∀ j, (st j).position = (st2 j).position)
    (hv : ∀ j, (st j).velocity = (st2 j).velocity) (hi : st i = st2 i) :
    Bird.alignment st i = Bird.alignment st2 i := by
  simp only [Bird.alignment, hi, hp, hv]
  rw [getNeighbors_congr st st2 i _ hp]

/-- Function `cohesion` depends only on the own record and the positions. -/
lemma cohesion_congr {n : ℕ} (st st2 : Fin n → Bird) (i : Fin n)
    (hp : ∀ j, (st j).position = (st2 j).position) (hi : st i = st2 i) :
    Bird.cohesion st i = Bird.cohesion st2 i := by
  simp only [Bird.cohesion, hi, hp]
  rw [getNeighbors_congr st st2 i _ hp]

/-- Function `applyFlocking` depends only on the own record, positions and
velocities. -/
lemma applyFlocking_congr {n : ℕ} (st st2 : Fin n → Bird) (i : Fin n)
    (hp : ∀ j, (st j).position = (st2 j).position)
    (hv : ∀ j, (st j).velocity = (st2 j).velocity) (hi : st i = st2 i) :
    Bird.applyFlocking st i = Bird.applyFlocking st2 i := by
  simp only [Bird.applyFlocking, hi, separation_congr st st2 i hp hi,
    alignment_congr st st2 i hp hv hi, cohesion_congr st st2 i hp hi]

/-- Function `applyFlocking` leaves position and velocity unchanged. -/
lemma applyFlocking_frame {n : ℕ} (st : Fin n → Bird) (i : Fin n) :
    (Bird.applyFlocking st i).position = (st i).position ∧
      (Bird.applyFlocking st i).velocity = (st i).velocity := by
  simp only [Bird.applyFlocking]
  split <;> exact ⟨rfl, rfl⟩

/-- Function `applyFlocking` writes only the own `targetDirection`. -/
lemma applyFlocking_writes_targetDirection {n : ℕ} (st : Fin n → Bird) (i : Fin n) :
    ∃ td, Bird.applyFlocking st i = { st i with targetDirection := td } := by
  simp only [Bird.applyFlocking]
  split
  · exact ⟨_, rfl⟩
  · exact ⟨(st i).targetDirection, rfl⟩

/-- Processing the members sequentially in any duplicate-free order computes,
for each processed member, exactly the result of `applyFlocking` against the
initial snapshot. -/
lemma flockPass_spec {n : ℕ} (flock : Fin n → Bird) :
    ∀ (order : List (Fin n)) (st : Fin n → Bird),
      (∀ j, (st j).position = (flock j).position) →
      (∀ j, (st j).velocity = (flock j).velocity) →
      (∀ j ∈ order, st j = flock j) → order.Nodup →
      ∀ j, flockPass st order j =
        if j ∈ order then Bird.applyFlocking flock j else st j := by
  intro order
  induction order with
  | nil =>
    intro st hp hv hmem hnd j
    simp [flockPass]
  | cons i rest ih =>
    intro st hp hv hmem hnd j
    have hstep : flockPass st (i :: rest) =
        flockPass (Function.update st i (Bird.applyFlocking st i)) rest := rfl
    have hsti : st i = flock i := hmem i (List.mem_cons_self i rest)
    have happ : Bird.applyFlocking st i = Bird.applyFlocking flock i :=
      applyFlocking_congr st flock i hp hv hsti
    have hnodup := List.nodup_cons.mp hnd
    have hp1 : ∀ m, ((Function.update st i (Bird.applyFlocking st i)) m).position =
        (flock m).position := by
      intro m
      by_cases hm : m = i
      · subst hm
        rw [Function.update_same, (applyFlocking_frame st m).1, hp m]
      · rw [Function.update_noteq hm, hp m]
    have hv1 : ∀ m, ((Function.update st i (Bird.applyFlocking st i)) m).velocity =
        (flock m).velocity := by
      intro m
      by_cases hm : m = i
      · subst hm
        rw [Function.update_same, (applyFlocking_frame st m).2, hv m]
      · rw [Function.update_noteq hm, hv m]
    have hmem1 : ∀ m ∈ rest, (Function.update st i (Bird.applyFlocking st i)) m = flock m := by
      intro m hm
      have hmi : m ≠ i := fun he => hnodup.1 (he ▸ hm)
      rw [Function.update_noteq hmi]
      exact hmem m (List.mem_cons_of_mem i hm)
    have hrec := ih (Function.update st i (Bird.applyFlocking st i)) hp1 hv1 hmem1 hnodup.2 j
    rw [hstep, hrec]
    by_cases hjr : j ∈ rest
    · simp [hjr, List.mem_cons]
    · by_cases hji : j = i
      · subst hji
        simp [hjr, List.mem_cons, Function.update_same, happ]
      · simp [hjr, hji, List.mem_cons, Function.update_noteq hji]

/-- C2: flocking force computation is order-independent: `applyFlocking`
writes only the calling member's own `targetDirection`, and running the
`applyFlocking` calls sequentially in any duplicate-free order covering the
whole flock leaves every member in exactly the state computed by its own
`applyFlocking` against the tick-start snapshot. -/
theorem applyFlocking_order_independent {n : ℕ} (flock : Fin n → Bird)
    (order : List (Fin n)) (hnd : order.Nodup) (hall : ∀ i, i ∈ order) :
    (∀ j, ∃ td, Bird.applyFlocking flock j = { flock j with targetDirection := td }) ∧
      ∀ i, flockPass flock order i = Bird.applyFlocking flock i := by
  refine ⟨fun j => applyFlocking_writes_targetDirection flock j, fun i => ?_⟩
  have h := flockPass_spec flock order flock (fun _ => rfl) (fun _ => rfl)
    (fun _ _ => rfl) hnd i
  rw [h, if_pos (hall i)]

/-- Witness for C2: a two-member flock processed in the order `[1, 0]`. -/
theorem applyFlocking_order_independent_witness :
    (([1, 0] : List (Fin 2)).Nodup ∧ ∀ i : Fin 2, i ∈ ([1, 0] : List (Fin 2))) ∧
      flockPass (fun _ : Fin 2 => baseBird) [1, 0] 0 =
        Bird.applyFlocking (fun _ : Fin 2 => baseBird) 0 :=
  ⟨⟨by decide, by decide⟩,
    (applyFlocking_order_independent (fun _ : Fin 2 => baseBird) [1, 0] (by decide)
        (by decide)).2 0⟩

/-! Helper lemmas for the mountain-escape scenario (claim about a bird
inside a triangular obstacle). -/

/-- Identity `Math.sign(x) * |x| = x` over the reals. -/
lemma real_sign_mul_abs (x : ℝ) : Real.sign x * |x| = x := by
  rcases lt_trichotomy x 0 with h | h | h
  · rw [Real.sign_of_neg h, abs_of_neg h]
    ring
  · rw [h]
    simp
  · rw [Real.sign_of_pos h, abs_of_pos h]
    ring

/-- Angle wrapping only shifts by an integer multiple of `2π`. -/
lemma normalizeAngle_add_int (a : ℝ) :
    ∃ m : ℤ, normalizeAngle a = a + 2 * Real.pi * m := by
  unfold normalizeAngle
  split
  · refine ⟨-⌈(a - Real.pi) / (2 * Real.pi)⌉, ?_⟩
    push_cast
    ring
  · split
    · exact ⟨⌈(-Real.pi - a) / (2 * Real.pi)⌉, by ring⟩
    · exact ⟨0, by simp⟩

/-- An angle already in `[-π, π]` is left unchanged; in particular `0`. -/
lemma normalizeAngle_zero : normalizeAngle 0 = 0 := by
  rw [normalizeAngle, if_neg (by linarith [Real.pi_pos]), if_neg (by linarith [Real.pi_pos])]

/-- Angle `-π` is on the boundary the loops do not move. -/
lemma normalizeAngle_neg_pi : normalizeAngle (-Real.pi) = -Real.pi := by
  rw [normalizeAngle, if_neg (by linarith [Real.pi_pos]), if_neg (lt_irrefl _)]

/-- When the required turn fits in this tick's turn budget, the bird reaches
its target direction (up to the `2π` wrap of `angleDiff`). -/
lemma turnStep_of_within (target current turnSpeed deltaTime : ℝ)
    (h : |normalizeAngle (target - current)| ≤ turnLimit target current turnSpeed deltaTime) :
    turnStep target current turnSpeed deltaTime =
      current + normalizeAngle (target - current) := by
  simp only [turnStep]
  rw [min_eq_left h, real_sign_mul_abs]

/-- Value `Math.atan2(y, 0) = π/2` for positive `y`. -/
lemma atan2_pos_y (y : ℝ) (hy : 0 < y) : atan2 y 0 = Real.pi / 2 := by
  rw [atan2, if_neg (lt_irrefl 0), if_neg (lt_irrefl 0), if_pos hy]

/-- Value `Math.atan2(y, 0) = -π/2` for negative `y`. -/
lemma atan2_neg_y (y : ℝ) (hy : y < 0) : atan2 y 0 = -(Real.pi / 2) := by
  rw [atan2, if_neg (lt_irrefl 0), if_neg (lt_irrefl 0), if_neg (asymm hy), if_pos hy]

/-- The point `(1/4, 1/4)` is inside the test triangle. -/
lemma isPointInside_triangle :
    triangleMountain.isPointInside ⟨1 / 4, 1 / 4⟩ = true := by
  norm_num [Mountain.isPointInside, triangleMountain, List.range_succ, crossAt, crossing,
    vertexAt]

/-- C4 (amended): for a bird strictly inside an obstacle, `update` sets the
target direction straight up and boosts the speed; the heading only moves
toward "up" within the tick's turn budget, so the conclusion of the original
claim additionally needs the turn to complete within this tick
(`|angleDiff| ≤ maxTurn`), the gravity loss to stay within the boost margin
(`gravityEffect·deltaTime ≤ 0.2·baseSpeed`), and `baseSpeed ≤ maxSpeed`;
then the post-state heading points down-to-up (`velocity.y < 0`) and
`currentSpeed ≥ baseSpeed`. -/
theorem bird_inside_mountain_escape (b : Bird) (dt w h r1 r2 : ℝ) (m : Mountain ℝ)
    (hin : m.isPointInside b.position = true)
    (hturn : |normalizeAngle (-(Real.pi / 2) - atan2 b.velocity.y b.velocity.x)| ≤
        turnLimit (-(Real.pi / 2)) (atan2 b.velocity.y b.velocity.x) b.turnSpeed dt)
    (hbase : 0 < b.baseSpeed) (hbm : b.baseSpeed ≤ b.maxSpeed)
    (hgd : b.gravityEffect * dt ≤ 0.2 * b.baseSpeed) :
    (b.update dt w h (some m) r1 r2).velocity.y < 0 ∧
      b.baseSpeed ≤ (b.update dt w h (some m) r1 r2).currentSpeed := by
  have havoid : b.avoidance (some m) = some (-(Real.pi / 2)) := by
    simp only [Bird.avoidance, hin, if_true]
  have htd : b.newTargetDirection dt (some m) r1 = -(Real.pi / 2) := by
    simp only [Bird.newTargetDirection, havoid]
  have hboost : b.baseSpeed * 1.2 ≤ b.boostedSpeed (some m) := by
    simp only [Bird.boostedSpeed, hin, if_true]
    split
    · exact le_refl _
    · next hcs => linarith [not_lt.mp hcs]
  have hnd : b.newDirection dt (some m) r1 =
      atan2 b.velocity.y b.velocity.x +
        normalizeAngle (-(Real.pi / 2) - atan2 b.velocity.y b.velocity.x) := by
    rw [Bird.newDirection, htd]
    exact turnStep_of_within _ _ _ _ hturn
  obtain ⟨mz, hmz⟩ :=
    normalizeAngle_add_int (-(Real.pi / 2) - atan2 b.velocity.y b.velocity.x)
  have hsum : atan2 b.velocity.y b.velocity.x +
      normalizeAngle (-(Real.pi / 2) - atan2 b.velocity.y b.velocity.x) =
      -(Real.pi / 2) + mz * (2 * Real.pi) := by
    rw [hmz]
    ring
  have hsin : Real.sin (b.newDirection dt (some m) r1) = -1 := by
    rw [hnd, hsum, Real.sin_add_int_mul_two_pi, Real.sin_neg, Real.sin_pi_div_two]
  have hcs : (b.update dt w h (some m) r1 r2).currentSpeed =
      max b.minSpeed (min b.maxSpeed
        (b.boostedSpeed (some m) + b.gravityEffect * (-1) * dt)) := by
    simp only [Bird.update, Bird.newSpeed, hsin]
  have hX : b.baseSpeed ≤ b.boostedSpeed (some m) + b.gravityEffect * (-1) * dt := by
    nlinarith [hboost, hgd]
  have hcs2 : b.baseSpeed ≤ (b.update dt w h (some m) r1 r2).currentSpeed := by
    rw [hcs]
    exact le_trans (le_min hbm hX) (le_max_right _ _)
  refine ⟨?_, hcs2⟩
  have hvy : (b.update dt w h (some m) r1 r2).velocity.y =
      Real.sin (b.newDirection dt (some m) r1) * b.newSpeed dt (some m) r1 := rfl
  have hns : b.newSpeed dt (some m) r1 = (b.update dt w h (some m) r1 r2).currentSpeed := rfl
  rw [hvy, hsin, hns]
  nlinarith [hcs2, hbase]

/-- Witness for the amended C4: `escapingBird` (inside the triangle, already
heading straight up, unit turn speed) with `deltaTime = 1/10`. -/
theorem bird_inside_mountain_escape_witness :
    triangleMountain.isPointInside escapingBird.position = true ∧
      |normalizeAngle (-(Real.pi / 2) -
          atan2 escapingBird.velocity.y escapingBird.velocity.x)| ≤
        turnLimit (-(Real.pi / 2)) (atan2 escapingBird.velocity.y escapingBird.velocity.x)
          escapingBird.turnSpeed (1 / 10) ∧
      (0 : ℝ) < escapingBird.baseSpeed ∧
      escapingBird.baseSpeed ≤ escapingBird.maxSpeed ∧
      escapingBird.gravityEffect * (1 / 10) ≤ 0.2 * escapingBird.baseSpeed ∧
      ((escapingBird.update (1 / 10) 1 1 (some triangleMountain) 0 0).velocity.y < 0 ∧
        escapingBird.baseSpeed ≤
          (escapingBird.update (1 / 10) 1 1 (some triangleMountain) 0 0).currentSpeed) := by
  have h1 : triangleMountain.isPointInside escapingBird.position = true :=
    isPointInside_triangle
  have hcd : atan2 escapingBird.velocity.y escapingBird.velocity.x = -(Real.pi / 2) :=
    atan2_neg_y (-1) (by norm_num)
  have hdiff : -(Real.pi / 2) - -(Real.pi / 2) = 0 := by ring
  have h2 : |normalizeAngle (-(Real.pi / 2) -
      atan2 escapingBird.velocity.y escapingBird.velocity.x)| ≤
      turnLimit (-(Real.pi / 2)) (atan2 escapingBird.velocity.y escapingBird.velocity.x)
        escapingBird.turnSpeed (1 / 10) := by
    rw [hcd]
    simp only [turnLimit, hdiff, normalizeAngle_zero, abs_zero]
    have hts : escapingBird.turnSpeed = 1 := rfl
    rw [hts]
    norm_num [BIRD_TURN_INERTIA_MIN, BIRD_TURN_INERTIA_MAX]
  have h3 : (0 : ℝ) < escapingBird.baseSpeed := by norm_num [escapingBird, baseBird]
  have h4 : escapingBird.baseSpeed ≤ escapingBird.maxSpeed := by
    norm_num [escapingBird, baseBird]
  have h5 : escapingBird.gravityEffect * (1 / 10) ≤ 0.2 * escapingBird.baseSpeed := by
    norm_num [escapingBird, baseBird]
  exact ⟨h1, h2, h3, h4, h5,
    bird_inside_mountain_escape escapingBird (1 / 10) 1 1 0 0 triangleMountain
      h1 h2 h3 h4 h5⟩

/-- Counterexample to C4 as stated: `divingBird` starts strictly inside
`triangleMountain` flying straight down; with `deltaTime = 1/10` the
rate-limited turn only reaches heading `43π/100`, whose sine is positive, so
after one `update` the bird is still moving down (`velocity.y > 0`). -/
theorem bird_inside_mountain_counterexample :
    triangleMountain.isPointInside divingBird.position = true ∧ (0 : ℝ) < 1 / 10 ∧
      ¬ ((divingBird.update (1 / 10) 1 1 (some triangleMountain) 0 0).velocity.y < 0 ∧
          (divingBird.update (1 / 10) 1 1 (some triangleMountain) 0 0).baseSpeed ≤
            (divingBird.update (1 / 10) 1 1 (some triangleMountain) 0 0).currentSpeed) := by
  have hin : triangleMountain.isPointInside divingBird.position = true :=
    isPointInside_triangle
  refine ⟨hin, by norm_num, ?_⟩
  have hcd : atan2 divingBird.velocity.y divingBird.velocity.x = Real.pi / 2 :=
    atan2_pos_y 1 one_pos
  have havoid : divingBird.avoidance (some triangleMountain) = some (-(Real.pi / 2)) := by
    simp only [Bird.avoidance, hin, if_true]
  have htd : divingBird.newTargetDirection (1 / 10) (some triangleMountain) 0 =
      -(Real.pi / 2) := by
    simp only [Bird.newTargetDirection, havoid]
  have hnorm : normalizeAngle (-(Real.pi / 2) - Real.pi / 2) = -Real.pi := by
    rw [show -(Real.pi / 2) - Real.pi / 2 = -Real.pi by ring, normalizeAngle_neg_pi]
  have habs : |(-Real.pi)| = Real.pi := by
    rw [abs_neg, abs_of_nonneg Real.pi_pos.le]
  have hnd : divingBird.newDirection (1 / 10) (some triangleMountain) 0 =
      43 * Real.pi / 100 := by
    rw [Bird.newDirection, htd, hcd]
    have hts : divingBird.turnSpeed = Real.pi := rfl
    simp only [turnStep, turnLimit, hts, hnorm, habs]
    rw [div_self Real.pi_ne_zero,
      Real.sign_of_neg (by linarith [Real.pi_pos] : -Real.pi < 0)]
    rw [show Real.pi * (BIRD_TURN_INERTIA_MIN +
        (1 - (1 - 1) ^ 3) * (BIRD_TURN_INERTIA_MAX - BIRD_TURN_INERTIA_MIN)) * (1 / 10) =
        7 * Real.pi / 100 by
      norm_num [BIRD_TURN_INERTIA_MIN, BIRD_TURN_INERTIA_MAX]
      ring]
    rw [min_eq_right (by linarith [Real.pi_pos])]
    ring
  have hsinpos : 0 < Real.sin (43 * Real.pi / 100) :=
    Real.sin_pos_of_pos_of_lt_pi (by positivity) (by linarith [Real.pi_pos])
  have hns : 0 < divingBird.newSpeed (1 / 10) (some triangleMountain) 0 := by
    have hmin : (0 : ℝ) < divingBird.minSpeed := by norm_num [divingBird, baseBird]
    exact lt_of_lt_of_le hmin (le_max_left _ _)
  have hvy : (divingBird.update (1 / 10) 1 1 (some triangleMountain) 0 0).velocity.y =
      Real.sin (divingBird.newDirection (1 / 10) (some triangleMountain) 0) *
        divingBird.newSpeed (1 / 10) (some triangleMountain) 0 := rfl
  have hpos : 0 < (divingBird.update (1 / 10) 1 1 (some triangleMountain) 0 0).velocity.y := by
    rw [hvy, hnd]
    exact mul_pos hsinpos hns
  rintro ⟨hy, -⟩
  linarith

end Taikan
